import Mathlib

/-!
Verification development for the Background-Remover web app.

The compositing pipeline of `handleDownload` (src/App.tsx), the encoder
`fileToBase64` (src/App.tsx), and the remote-call wrappers `removeBackground`
and `generateBackground` (src/services/geminiService.ts) are shallowly
embedded below.  JavaScript numbers appearing in the scaling math are modelled
as exact rationals (ℚ); intrinsic image dimensions (`naturalWidth`,
`naturalHeight`) are unsigned integers and are modelled as ℕ.  Canvas 2D
drawing is modelled as a trace of draw operations, each recording the filter
string in effect at the moment of the call.
-/

namespace BgRemover

/-- Truthiness of a JavaScript `string | null | undefined` value: `null`,
`undefined` and the empty string are falsy. -/
def jsTruthy : Option String → Bool
  | none => false
  | some s => !(s == "")

/-- JavaScript `a || b` for a possibly-absent string `a`: the fallback `b` is
used when `a` is `null`/`undefined` or the empty string. -/
def jsOrStr : Option String → String → String
  | none, b => b
  | some s, b => if s = "" then b else s

/-! ## Compositor data model (src/App.tsx, `handleDownload`) -/

/-- An `HTMLImageElement` staged for drawing: whether its load succeeded
(`onload` vs `onerror`) and its intrinsic dimensions. -/
structure ImageSrc where
  loadOk : Bool
  naturalWidth : Nat
  naturalHeight : Nat
deriving DecidableEq, Repr

/-- The `backgroundType` state: `'transparent' | 'color' | 'image'`. -/
inductive BackgroundType where
  | transparent
  | color
  | image
deriving DecidableEq, Repr

/-- The `BackgroundImageAdjustments` record of src/App.tsx. -/
structure Adjustments where
  opacity : Nat
  blur : Nat
  brightness : Nat
  grayscale : Nat
deriving DecidableEq, Repr

/-- The `initialAdjustments` constant of src/App.tsx. -/
def initialAdjustments : Adjustments :=
  { opacity := 100, blur := 0, brightness := 100, grayscale := 0 }

/-- The canvas context's `filter` property: either the neutral `'none'` or the
four-parameter chain
`opacity(o%) blur(b px) brightness(br%) grayscale(g%)` set on line 156. -/
inductive FilterState where
  | none
  | filter (opacity blur brightness grayscale : Nat)
deriving DecidableEq, Repr

/-- Which image a `drawImage` call draws. -/
inductive Layer where
  | foreground
  | background
deriving DecidableEq, Repr

/-- One recorded canvas drawing operation.  `drawImage` records the source
rectangle, the destination rectangle and the filter in effect; `fillRect`
records the fill color, the rectangle and the filter in effect. -/
inductive DrawOp where
  | fillRect (color : String) (x y w h : ℚ) (filter : FilterState)
  | drawImage (layer : Layer) (sx sy sw sh dx dy dw dh : ℚ) (filter : FilterState)
deriving DecidableEq, Repr

/-- The finished canvas: its dimensions and the trace of drawing operations
performed on it, in order. -/
structure Canvas where
  width : Nat
  height : Nat
  ops : List DrawOp
deriving DecidableEq, Repr

/-- Line 131: `foreground.naturalWidth > 0 ? foreground.naturalWidth : 1024`. -/
def targetWidth (foreground : ImageSrc) : Nat :=
  if foreground.naturalWidth > 0 then foreground.naturalWidth else 1024

/-- Line 132: `foreground.naturalHeight > 0 ? foreground.naturalHeight : 1024`. -/
def targetHeight (foreground : ImageSrc) : Nat :=
  if foreground.naturalHeight > 0 then foreground.naturalHeight else 1024

/-- The three-argument call `ctx.drawImage(foreground, 0, 0)`: the whole source
drawn at its native size with destination origin (0,0), under the filter in
effect at that point (always `'none'` in `handleDownload`). -/
def fgDraw (foreground : ImageSrc) : DrawOp :=
  .drawImage .foreground 0 0 foreground.naturalWidth foreground.naturalHeight
    0 0 foreground.naturalWidth foreground.naturalHeight .none

/-- Shallow embedding of `getCanvas` inside `handleDownload`
(src/App.tsx lines 128–173).  The asynchronous image loads are represented by
the `loadOk` flags of the staged images; `ctxOk` represents
`canvas.getContext('2d')` returning non-null.  Each branch of the
`if / else if / else` chain on `backgroundType` produces the canvas with the
drawing operations it performs, in order; each `reject(...)` becomes
`.error` with the corresponding message. -/
def getCanvas (foreground : ImageSrc) (backgroundType : BackgroundType)
    (backgroundColor : String) (backgroundImagePreview : Option ImageSrc)
    (adjustments : Adjustments) (ctxOk : Bool) : Except String Canvas :=
  if foreground.loadOk then
    let w := targetWidth foreground
    let h := targetHeight foreground
    if ctxOk then
      match backgroundType, backgroundImagePreview with
      | .color, _ =>
          .ok { width := w, height := h,
                ops := [ .fillRect backgroundColor 0 0 (w : ℚ) (h : ℚ) .none,
                         fgDraw foreground ] }
      | .image, some background =>
          if background.loadOk then
            let hRatio : ℚ := (w : ℚ) / (background.naturalWidth : ℚ)
            let vRatio : ℚ := (h : ℚ) / (background.naturalHeight : ℚ)
            let ratio : ℚ := max hRatio vRatio
            let centerShiftX : ℚ := ((w : ℚ) - (background.naturalWidth : ℚ) * ratio) / 2
            let centerShiftY : ℚ := ((h : ℚ) - (background.naturalHeight : ℚ) * ratio) / 2
            .ok { width := w, height := h,
                  ops := [ .drawImage .background
                             0 0 (background.naturalWidth : ℚ) (background.naturalHeight : ℚ)
                             centerShiftX centerShiftY
                             ((background.naturalWidth : ℚ) * ratio)
                             ((background.naturalHeight : ℚ) * ratio)
                             (.filter adjustments.opacity adjustments.blur
                               adjustments.brightness adjustments.grayscale),
                           fgDraw foreground ] }
          else .error "Background image failed to load for download."
      | _, _ =>
          .ok { width := w, height := h, ops := [ fgDraw foreground ] }
    else .error "Could not get canvas context"
  else .error "Foreground image failed to load for download."

/-- Line 179: `originalFile.name.split('.')` with a single-character separator,
JavaScript semantics (splitting the empty string yields `[""]`). -/
def jsSplitChar (sep : Char) : List Char → List (List Char)
  | [] => [[]]
  | c :: rest =>
      let r := jsSplitChar sep rest
      if c = sep then [] :: r
      else
        match r with
        | s :: tl => (c :: s) :: tl
        | [] => [[c]]

/-- Lines 179–180: the download filename
`name.split('.').slice(0, -1).join('.') + "_processed.png"`. -/
def downloadName (originalName : String) : String :=
  let name := String.intercalate "."
    (((jsSplitChar '.' originalName.data).dropLast).map fun cs => String.mk cs)
  name ++ "_processed.png"

/-! ## Encoder (src/App.tsx, `fileToBase64`) -/

/-- Outcome of `FileReader.readAsDataURL`: either the `onerror` event fires, or
`onload` fires with `reader.result` as a string. -/
inductive FileReadOutcome where
  | failure
  | success (result : String)
deriving DecidableEq, Repr

/-- Everything before the first `';'`, or `Option.none` when no `';'` occurs. -/
def takeBeforeSemicolon : List Char → Option (List Char)
  | [] => Option.none
  | c :: rest =>
      if c = ';' then some [] else (takeBeforeSemicolon rest).map (c :: ·)

/-- The regular-expression match `header.match(/:(.*?);/)?.[1]` of line 32:
the capture group of the leftmost match, i.e. the characters strictly between
the first `':'` that is followed by a `';'` and the first `';'` after it.
(The `.`-does-not-match-newline nuance is elided: data URLs contain no
newlines.) -/
def extractMime : List Char → Option (List Char)
  | [] => Option.none
  | c :: rest =>
      if c = ':' then
        match takeBeforeSemicolon rest with
        | some g => some g
        | Option.none => extractMime rest
      else extractMime rest

/-- Line 31: the second element of `result.split(',')` (the JavaScript
destructuring `[header, base64]`; `undefined` when there is no comma). -/
def dataUrlPayload (result : String) : Option String :=
  (result.splitOn ",").get? 1

/-- Lines 31–32: the media type extracted from the first element of
`result.split(',')` by the regex `/:(.*?);/`. -/
def dataUrlMime (result : String) : Option String :=
  (extractMime ((result.splitOn ",").headI.data)).map fun cs => String.mk cs

/-- Shallow embedding of `fileToBase64` (src/App.tsx lines 25–41).  On a read
failure the promise is rejected with the error event; on load the data URL is
split and the promise resolves only when both the base64 payload and the MIME
type are truthy, otherwise it rejects with the parse-failure message. -/
def fileToBase64 : FileReadOutcome → Except String (String × String)
  | .failure => .error "FileReader error"
  | .success result =>
      match dataUrlPayload result, dataUrlMime result with
      | some base64, some mimeType =>
          if base64 = "" ∨ mimeType = "" then .error "Failed to parse file data URL."
          else .ok (base64, mimeType)
      | _, _ => .error "Failed to parse file data URL."

/-! ## Remote-call wrappers (src/services/geminiService.ts) -/

/-- One `part` of the first candidate's content in the Gemini response:
`inlineData` holds the image `data` when the part has inline data, `text`
holds the part's text when present. -/
structure Part where
  inlineData : Option String
  text : Option String
deriving DecidableEq, Repr

/-- Line 37: `parts.find(part => part.inlineData)` followed by reading
`imagePart.inlineData.data`.  A response with no candidates or no parts is
represented by the empty list (optional chaining then finds nothing). -/
def findImageData (parts : List Part) : Option String :=
  (parts.find? fun p => p.inlineData.isSome).bind Part.inlineData

/-- Lines 43–44: `parts.find(part => part.text)` followed by reading
`textPart?.text` — a part is found only when its `text` is a truthy
(non-empty) string. -/
def findErrorText (parts : List Part) : Option String :=
  (parts.find? fun p => jsTruthy p.text).bind Part.text

/-- Shallow embedding of `removeBackground`
(src/services/geminiService.ts lines 10–54).  `apiKey` is
`process.env.API_KEY`; `call` is the outcome of the
`ai.models.generateContent` request, giving the parts of the first candidate
on success.  A throw inside the `try` block (including the
`Failed to extract image…` throw) is caught by the `catch` and re-thrown
wrapped in the communicating-with-the-AI prefix. -/
def removeBackground (apiKey : Option String)
    (call : Except String (List Part)) : Except String String :=
  if jsTruthy apiKey then
    match call with
    | .error msg =>
        .error ("An error occurred while communicating with the AI: " ++ msg)
    | .ok parts =>
        match findImageData parts with
        | some data => .ok data
        | Option.none =>
            let errorMessage := jsOrStr (findErrorText parts)
              "The AI could not process the image. Please try a different one."
            .error ("An error occurred while communicating with the AI: " ++
              ("Failed to extract image from AI response: " ++ errorMessage))
  else .error "API_KEY environment variable not set. Please ensure it is configured."

/-- JavaScript `String.prototype.trim`: strips whitespace from both ends
(whitespace per `Char.isWhitespace`). -/
def jsTrim (s : String) : String :=
  String.mk (((s.data.dropWhile Char.isWhitespace).reverse.dropWhile Char.isWhitespace).reverse)

/-- Steps of `generateBackground` that contact the outside world: constructing
the `GoogleGenAI` client (line 70) and issuing the `generateImages` request
(line 73). -/
inductive GenStep where
  | createClient
  | remoteCall
deriving DecidableEq, Repr

/-- Shallow embedding of `generateBackground`
(src/services/geminiService.ts lines 61–97).  `call` is the outcome of the
`ai.models.generateImages` request, giving
`response.generatedImages?.[0]?.image?.imageBytes` on success.  The returned
list records, in order, the external steps actually performed.  As in
`removeBackground`, a throw inside the `try` block is re-thrown wrapped by the
`catch`. -/
def generateBackground (prompt : String) (apiKey : Option String)
    (call : Except String (Option String)) : Except String String × List GenStep :=
  if jsTrim prompt = "" then
    (.error "Prompt cannot be empty.", [])
  else if !(jsTruthy apiKey) then
    (.error "API_KEY environment variable not set.", [])
  else
    let steps := [GenStep.createClient, GenStep.remoteCall]
    match call with
    | .error msg =>
        (.error ("An error occurred while communicating with the AI: " ++ msg), steps)
    | .ok image =>
        if jsTruthy image then
          ((Except.ok (image.getD "") : Except String String), steps)
        else
          (.error ("An error occurred while communicating with the AI: " ++
            "The AI could not generate an image for that prompt. Please try a different one."),
           steps)

/-! ## Helper observations on draw traces -/

/-- The filter in effect when a drawing operation was issued. -/
def opFilter : DrawOp → FilterState
  | .fillRect _ _ _ _ _ f => f
  | .drawImage _ _ _ _ _ _ _ _ _ f => f

/-- Whether a drawing operation draws the foreground image. -/
def opIsForeground : DrawOp → Bool
  | .drawImage .foreground _ _ _ _ _ _ _ _ _ => true
  | _ => false

/-! ## Claim statements as predicates -/

/-- In the transparent branch the whole trace is the single native-size
foreground draw (claim C4). -/
def transparentOnlyForeground (fg : ImageSrc) (col : String)
    (prev : Option ImageSrc) (adj : Adjustments) : Prop :=
  getCanvas fg .transparent col prev adj true =
    .ok { width := targetWidth fg, height := targetHeight fg, ops := [fgDraw fg] }

/-- Output dimensions follow the foreground's intrinsic size with the 1024
fallback, and the foreground is always the final draw, at native size and
origin (0,0) (claim C3). -/
def outputMatchesForegroundSize (fg : ImageSrc) (bt : BackgroundType)
    (col : String) (prev : Option ImageSrc) (adj : Adjustments) : Prop :=
  ∀ c, getCanvas fg bt col prev adj true = .ok c →
    c.width = (if fg.naturalWidth > 0 then fg.naturalWidth else 1024) ∧
    c.height = (if fg.naturalHeight > 0 then fg.naturalHeight else 1024) ∧
    c.ops.getLast? = some (.drawImage .foreground
      0 0 fg.naturalWidth fg.naturalHeight
      0 0 fg.naturalWidth fg.naturalHeight FilterState.none)

/-- The dimension fallback is applied per axis independently (claim C9). -/
def perAxisFallback (fg : ImageSrc) (bt : BackgroundType) (col : String)
    (prev : Option ImageSrc) (adj : Adjustments) : Prop :=
  ∀ c, getCanvas fg bt col prev adj true = .ok c →
    (c.width = (if fg.naturalWidth = 0 then 1024 else fg.naturalWidth) ∧
     c.height = (if fg.naturalHeight = 0 then 1024 else fg.naturalHeight)) ∧
    (fg.naturalWidth = 0 → 0 < fg.naturalHeight →
      c.width = 1024 ∧ c.height = fg.naturalHeight) ∧
    (fg.naturalHeight = 0 → 0 < fg.naturalWidth →
      c.width = fg.naturalWidth ∧ c.height = 1024) ∧
    (fg.naturalWidth = 0 → fg.naturalHeight = 0 →
      c.width = 1024 ∧ c.height = 1024)

/-- Draw order and abort-on-failure behaviour (claim C5): on success the
foreground draw is the last operation and everything before it is background
drawing; a failed foreground load, or a failed background load in the image
branch, produces an error and no canvas. -/
def drawOrderAndAbort (fg : ImageSrc) (bt : BackgroundType) (col : String)
    (prev : Option ImageSrc) (adj : Adjustments) : Prop :=
  (∀ c, getCanvas fg bt col prev adj true = .ok c →
      c.ops ≠ [] ∧ c.ops.getLast? = some (fgDraw fg) ∧
      ∀ op ∈ c.ops.dropLast, opIsForeground op = false) ∧
  (fg.loadOk = false →
    getCanvas fg bt col prev adj true =
      .error "Foreground image failed to load for download.") ∧
  (∀ bg, bt = .image → prev = some bg → fg.loadOk = true → bg.loadOk = false →
    getCanvas fg bt col prev adj true =
      .error "Background image failed to load for download.")

/-! ## Shape of successful composites -/

/-- The canvas produced by the transparent (else) branch. -/
def plainCanvas (fg : ImageSrc) : Canvas :=
  { width := targetWidth fg, height := targetHeight fg, ops := [fgDraw fg] }

/-- The canvas produced by the color branch. -/
def colorCanvas (fg : ImageSrc) (col : String) : Canvas :=
  { width := targetWidth fg, height := targetHeight fg,
    ops := [ .fillRect col 0 0 (targetWidth fg : ℚ) (targetHeight fg : ℚ) .none,
             fgDraw fg ] }

/-- The cover scale factor of the image branch. -/
def bgRatio (fg bg : ImageSrc) : ℚ :=
  max ((targetWidth fg : ℚ) / (bg.naturalWidth : ℚ))
    ((targetHeight fg : ℚ) / (bg.naturalHeight : ℚ))

/-- The background draw of the image branch: scaled by the cover factor,
offset by the centering shift, under the four-parameter filter. -/
def bgDrawOp (fg bg : ImageSrc) (adj : Adjustments) : DrawOp :=
  .drawImage .background 0 0 (bg.naturalWidth : ℚ) (bg.naturalHeight : ℚ)
    (((targetWidth fg : ℚ) - (bg.naturalWidth : ℚ) * bgRatio fg bg) / 2)
    (((targetHeight fg : ℚ) - (bg.naturalHeight : ℚ) * bgRatio fg bg) / 2)
    ((bg.naturalWidth : ℚ) * bgRatio fg bg)
    ((bg.naturalHeight : ℚ) * bgRatio fg bg)
    (.filter adj.opacity adj.blur adj.brightness adj.grayscale)

/-- The canvas produced by the image branch. -/
def imageCanvas (fg bg : ImageSrc) (adj : Adjustments) : Canvas :=
  { width := targetWidth fg, height := targetHeight fg,
    ops := [ bgDrawOp fg bg adj, fgDraw fg ] }

/-- Every successful composite is the canvas of exactly one of the three
branches. -/
theorem getCanvas_ok_shape {fg : ImageSrc} {bt : BackgroundType} {col : String}
    {prev : Option ImageSrc} {adj : Adjustments} {c : Canvas}
    (h : getCanvas fg bt col prev adj true = .ok c) :
    fg.loadOk = true ∧
    ((bt = .color ∧ c = colorCanvas fg col) ∨
     (∃ bg, bt = .image ∧ prev = some bg ∧ bg.loadOk = true ∧
        c = imageCanvas fg bg adj) ∨
     (c = plainCanvas fg)) := by
  cases hfg : fg.loadOk with
  | false => simp [getCanvas, hfg] at h
  | true =>
    refine ⟨rfl, ?_⟩
    cases bt with
    | transparent =>
      simp only [getCanvas, hfg, if_true] at h
      exact Or.inr (Or.inr (by cases h; rfl))
    | color =>
      simp only [getCanvas, hfg, if_true] at h
      exact Or.inl ⟨rfl, by cases h; rfl⟩
    | image =>
      cases prev with
      | none =>
        simp only [getCanvas, hfg, if_true] at h
        exact Or.inr (Or.inr (by cases h; rfl))
      | some bg =>
        cases hbg : bg.loadOk with
        | false => simp [getCanvas, hfg, hbg] at h
        | true =>
          simp only [getCanvas, hfg, hbg, if_true] at h
          exact Or.inr (Or.inl ⟨bg, rfl, rfl, hbg, by cases h; rfl⟩)

/-! ## Theorems -/

/-- C4: with BackgroundSpec = None (transparent), no background pixels are
painted: the only drawing operation on the canvas is the foreground draw, so
the artifact keeps the foreground's alpha transparency. -/
theorem transparent_branch_only_draws_foreground (fg : ImageSrc) (col : String)
    (prev : Option ImageSrc) (adj : Adjustments) (hfg : fg.loadOk = true) :
    transparentOnlyForeground fg col prev adj := by
  unfold transparentOnlyForeground getCanvas
  rw [hfg]
  rfl

/-- Witness for C4 at a concrete foreground. -/
theorem transparent_branch_only_draws_foreground_witness :
    (⟨true, 4, 2⟩ : ImageSrc).loadOk = true ∧
    transparentOnlyForeground ⟨true, 4, 2⟩ "#FFFFFF" Option.none initialAdjustments :=
  ⟨rfl, transparent_branch_only_draws_foreground ⟨true, 4, 2⟩ "#FFFFFF" Option.none
    initialAdjustments rfl⟩

/-- C3: the output composite's dimensions equal the foreground's intrinsic
width and height, each falling back to 1024 when zero, and the foreground is
drawn at native size at origin (0,0), never resampled. -/
theorem output_canvas_matches_foreground (fg : ImageSrc) (bt : BackgroundType)
    (col : String) (prev : Option ImageSrc) (adj : Adjustments) :
    outputMatchesForegroundSize fg bt col prev adj := by
  intro c h
  obtain ⟨-, hcase⟩ := getCanvas_ok_shape h
  rcases hcase with ⟨-, rfl⟩ | ⟨bg, -, -, -, rfl⟩ | rfl <;> exact ⟨rfl, rfl, rfl⟩

/-- Witness for C3 at a concrete composite. -/
theorem output_canvas_matches_foreground_witness :
    outputMatchesForegroundSize ⟨true, 4, 2⟩ .color "#000000" Option.none
      initialAdjustments :=
  output_canvas_matches_foreground ⟨true, 4, 2⟩ .color "#000000" Option.none
    initialAdjustments

/-- C9: the dimension fallback is applied per axis independently; a zero
width with positive height yields a 1024 × naturalHeight canvas (and
symmetrically), and the full 1024×1024 default needs both axes to be zero. -/
theorem dimension_fallback_per_axis (fg : ImageSrc) (bt : BackgroundType)
    (col : String) (prev : Option ImageSrc) (adj : Adjustments) :
    perAxisFallback fg bt col prev adj := by
  intro c h
  obtain ⟨-, hcase⟩ := getCanvas_ok_shape h
  have hwc : c.width = targetWidth fg := by
    rcases hcase with ⟨-, rfl⟩ | ⟨bg, -, -, -, rfl⟩ | rfl <;> rfl
  have hhc : c.height = targetHeight fg := by
    rcases hcase with ⟨-, rfl⟩ | ⟨bg, -, -, -, rfl⟩ | rfl <;> rfl
  rw [hwc, hhc]
  unfold targetWidth targetHeight
  refine ⟨⟨by split_ifs <;> omega, by split_ifs <;> omega⟩, ?_, ?_, ?_⟩
  · intro h0 hp
    exact ⟨by simp [h0], by rw [if_pos hp]⟩
  · intro h0 hp
    exact ⟨by rw [if_pos hp], by simp [h0]⟩
  · intro h0 h1
    exact ⟨by simp [h0], by simp [h1]⟩

/-- Witness for C9 at a concrete foreground with one zero axis. -/
theorem dimension_fallback_per_axis_witness :
    perAxisFallback ⟨true, 0, 5⟩ .transparent "#FFFFFF" Option.none
      initialAdjustments :=
  dimension_fallback_per_axis ⟨true, 0, 5⟩ .transparent "#FFFFFF" Option.none
    initialAdjustments

/-- C5: in every branch the foreground draw is the last drawing operation,
strictly after all background drawing, and a failed foreground or background
bitmap load rejects the whole operation with no canvas. -/
theorem draw_order_and_abort_on_failure (fg : ImageSrc) (bt : BackgroundType)
    (col : String) (prev : Option ImageSrc) (adj : Adjustments) :
    drawOrderAndAbort fg bt col prev adj := by
  refine ⟨?_, ?_, ?_⟩
  · intro c h
    obtain ⟨-, hcase⟩ := getCanvas_ok_shape h
    rcases hcase with ⟨-, rfl⟩ | ⟨bg, -, -, -, rfl⟩ | rfl
    · refine ⟨by simp [colorCanvas], rfl, ?_⟩
      intro op hop
      simp only [colorCanvas, List.dropLast, List.mem_singleton] at hop
      rw [hop]; rfl
    · refine ⟨by simp [imageCanvas], rfl, ?_⟩
      intro op hop
      simp only [imageCanvas, List.dropLast, List.mem_singleton] at hop
      rw [hop]; rfl
    · exact ⟨by simp [plainCanvas], rfl, by intro op hop; simp [plainCanvas] at hop⟩
  · intro hfg
    simp [getCanvas, hfg]
  · intro bg hbt hprev hfg hbg
    subst hbt; subst hprev
    simp [getCanvas, hfg, hbg]

/-- Witness for C5 at a concrete image-branch composite. -/
theorem draw_order_and_abort_on_failure_witness :
    drawOrderAndAbort ⟨true, 4, 2⟩ .image "#FFFFFF" (some ⟨true, 3, 5⟩)
      initialAdjustments :=
  draw_order_and_abort_on_failure ⟨true, 4, 2⟩ .image "#FFFFFF" (some ⟨true, 3, 5⟩)
    initialAdjustments

/-- The image branch produces exactly the image-branch canvas. -/
theorem getCanvas_image_eq {fg bg : ImageSrc} (col : String) (adj : Adjustments)
    (hfg : fg.loadOk = true) (hbg : bg.loadOk = true) :
    getCanvas fg .image col (some bg) adj true = .ok (imageCanvas fg bg adj) := by
  simp only [getCanvas, hfg, hbg, if_true, imageCanvas, bgDrawOp, bgRatio]

/-- A cover scale factor applied to the source width reaches the canvas
width. -/
theorem le_mul_cover {w h bw bh : ℚ} (hbw : 0 < bw) :
    w ≤ bw * max (w / bw) (h / bh) := by
  have h1 : w / bw ≤ max (w / bw) (h / bh) := le_max_left _ _
  have h3 : bw * (w / bw) = w := by field_simp
  calc w = bw * (w / bw) := h3.symm
    _ ≤ bw * max (w / bw) (h / bh) := mul_le_mul_of_nonneg_left h1 hbw.le

/-- Cover-fit and centering of the background draw (claim C1): the first
operation of the image-branch composite draws the background scaled by the
cover factor at the centered offset; the destination rectangle covers the
whole canvas and the two overhang margins on each axis are equal. -/
def coverCentered (fg bg : ImageSrc) (col : String) (adj : Adjustments) : Prop :=
  ∃ c, getCanvas fg .image col (some bg) adj true = .ok c ∧
    c.ops.head? = some (bgDrawOp fg bg adj) ∧
    bgRatio fg bg = max ((targetWidth fg : ℚ) / (bg.naturalWidth : ℚ))
      ((targetHeight fg : ℚ) / (bg.naturalHeight : ℚ)) ∧
    (((targetWidth fg : ℚ) - (bg.naturalWidth : ℚ) * bgRatio fg bg) / 2 ≤ 0 ∧
     ((targetHeight fg : ℚ) - (bg.naturalHeight : ℚ) * bgRatio fg bg) / 2 ≤ 0) ∧
    ((targetWidth fg : ℚ) ≤
        ((targetWidth fg : ℚ) - (bg.naturalWidth : ℚ) * bgRatio fg bg) / 2 +
          (bg.naturalWidth : ℚ) * bgRatio fg bg ∧
     (targetHeight fg : ℚ) ≤
        ((targetHeight fg : ℚ) - (bg.naturalHeight : ℚ) * bgRatio fg bg) / 2 +
          (bg.naturalHeight : ℚ) * bgRatio fg bg) ∧
    (0 - ((targetWidth fg : ℚ) - (bg.naturalWidth : ℚ) * bgRatio fg bg) / 2 =
       (((targetWidth fg : ℚ) - (bg.naturalWidth : ℚ) * bgRatio fg bg) / 2 +
          (bg.naturalWidth : ℚ) * bgRatio fg bg) - (targetWidth fg : ℚ) ∧
     0 - ((targetHeight fg : ℚ) - (bg.naturalHeight : ℚ) * bgRatio fg bg) / 2 =
       (((targetHeight fg : ℚ) - (bg.naturalHeight : ℚ) * bgRatio fg bg) / 2 +
          (bg.naturalHeight : ℚ) * bgRatio fg bg) - (targetHeight fg : ℚ))

/-- C1: with BackgroundSpec = Image and positive background intrinsic
dimensions, the background is drawn scaled by the cover factor and offset by
the centered shift, fully covering the canvas with equal edge margins on each
axis. -/
theorem background_cover_fit_centered (fg bg : ImageSrc) (col : String)
    (adj : Adjustments) (hfg : fg.loadOk = true) (hbg : bg.loadOk = true)
    (hw : 0 < bg.naturalWidth) (hh : 0 < bg.naturalHeight) :
    coverCentered fg bg col adj := by
  have hbw : (0 : ℚ) < (bg.naturalWidth : ℚ) := by exact_mod_cast hw
  have hbh : (0 : ℚ) < (bg.naturalHeight : ℚ) := by exact_mod_cast hh
  have hcw : (targetWidth fg : ℚ) ≤ (bg.naturalWidth : ℚ) * bgRatio fg bg := by
    unfold bgRatio
    exact le_mul_cover hbw
  have hch : (targetHeight fg : ℚ) ≤ (bg.naturalHeight : ℚ) * bgRatio fg bg := by
    unfold bgRatio
    rw [max_comm]
    exact le_mul_cover hbh
  refine ⟨imageCanvas fg bg adj, getCanvas_image_eq col adj hfg hbg, rfl, rfl,
    ⟨by linarith, by linarith⟩, ⟨by linarith, by linarith⟩, by ring, by ring⟩

/-- Witness for C1 at a concrete foreground and background. -/
theorem background_cover_fit_centered_witness :
    (⟨true, 4, 2⟩ : ImageSrc).loadOk = true ∧
    (⟨true, 3, 5⟩ : ImageSrc).loadOk = true ∧
    0 < (⟨true, 3, 5⟩ : ImageSrc).naturalWidth ∧
    0 < (⟨true, 3, 5⟩ : ImageSrc).naturalHeight ∧
    coverCentered ⟨true, 4, 2⟩ ⟨true, 3, 5⟩ "#FFFFFF" initialAdjustments :=
  ⟨rfl, rfl, by decide, by decide,
    background_cover_fit_centered ⟨true, 4, 2⟩ ⟨true, 3, 5⟩ "#FFFFFF"
      initialAdjustments rfl rfl (by decide) (by decide)⟩

/-- Filter locality (claim C2): the image-branch composite draws the
foreground last with the neutral filter, identically to the foreground draw
of a composite where no filter is ever applied, and every operation issued
under a non-neutral filter draws the background. -/
def filterResetInvariant (fg bg : ImageSrc) (col : String) (adj : Adjustments) : Prop :=
  ∃ c cPlain,
    getCanvas fg .image col (some bg) adj true = .ok c ∧
    getCanvas fg .transparent col Option.none adj true = .ok cPlain ∧
    c.ops.getLast? = some (fgDraw fg) ∧
    opFilter (fgDraw fg) = FilterState.none ∧
    cPlain.ops.getLast? = c.ops.getLast? ∧
    ∀ op ∈ c.ops, opFilter op ≠ FilterState.none → opIsForeground op = false

/-- C2: the four-parameter filter chain applies only to the background draw;
the filter state is neutral again before the foreground draw, which is
identical to a foreground drawn with no filters ever applied. -/
theorem filters_do_not_leak_onto_foreground (fg bg : ImageSrc) (col : String)
    (adj : Adjustments) (hfg : fg.loadOk = true) (hbg : bg.loadOk = true) :
    filterResetInvariant fg bg col adj := by
  refine ⟨imageCanvas fg bg adj, plainCanvas fg,
    getCanvas_image_eq col adj hfg hbg, ?_, rfl, rfl, rfl, ?_⟩
  · unfold getCanvas plainCanvas
    rw [hfg]
    rfl
  · intro op hop hne
    cases hop with
    | head => rfl
    | tail _ hop2 =>
      cases hop2 with
      | head => exact absurd rfl hne
      | tail _ hop3 => cases hop3

/-- Witness for C2 at a concrete foreground and background. -/
theorem filters_do_not_leak_onto_foreground_witness :
    (⟨true, 4, 2⟩ : ImageSrc).loadOk = true ∧
    (⟨true, 3, 5⟩ : ImageSrc).loadOk = true ∧
    filterResetInvariant ⟨true, 4, 2⟩ ⟨true, 3, 5⟩ "#FFFFFF" ⟨50, 4, 120, 30⟩ :=
  ⟨rfl, rfl, filters_do_not_leak_onto_foreground ⟨true, 4, 2⟩ ⟨true, 3, 5⟩
    "#FFFFFF" ⟨50, 4, 120, 30⟩ rfl rfl⟩

/-- Truthiness of a present string is its non-emptiness. -/
theorem jsTruthy_some_false {s : String} : jsTruthy (some s) = false ↔ s = "" := by
  simp [jsTruthy]

/-- The encoder's exact success/failure behaviour (claim C6): it errors
exactly when the read failed or the data URL lacks a truthy payload or a
truthy media type, and on success it resolves with exactly the parsed payload
and media type. -/
def encoderSpec (o : FileReadOutcome) : Prop :=
  ((∃ e, fileToBase64 o = .error e) ↔
      (o = .failure ∨ ∃ r, o = .success r ∧
        (jsTruthy (dataUrlPayload r) = false ∨ jsTruthy (dataUrlMime r) = false))) ∧
  (∀ r b m, o = .success r → fileToBase64 o = .ok (b, m) →
      dataUrlPayload r = some b ∧ dataUrlMime r = some m)

/-- C6: the encoder fails exactly when the byte stream cannot be read or the
data-URL envelope lacks a parseable base64 payload or media type, and on
success resolves with both. -/
theorem encoder_fails_exactly_on_unreadable_or_malformed :
    ∀ o, encoderSpec o := by
  intro o
  cases o with
  | failure =>
    refine ⟨⟨fun _ => Or.inl rfl, fun _ => ⟨"FileReader error", rfl⟩⟩, ?_⟩
    intro r b m hr _
    exact FileReadOutcome.noConfusion hr
  | success r =>
    cases hp : dataUrlPayload r with
    | none =>
      have hval : fileToBase64 (.success r) = .error "Failed to parse file data URL." := by
        simp [fileToBase64, hp]
      refine ⟨⟨fun _ => Or.inr ⟨r, rfl, Or.inl (by rw [hp]; rfl)⟩,
        fun _ => ⟨_, hval⟩⟩, ?_⟩
      intro r' b m hr hok
      cases hr
      rw [hval] at hok
      exact Except.noConfusion hok
    | some b =>
      cases hm : dataUrlMime r with
      | none =>
        have hval : fileToBase64 (.success r) = .error "Failed to parse file data URL." := by
          simp [fileToBase64, hp, hm]
        refine ⟨⟨fun _ => Or.inr ⟨r, rfl, Or.inr (by rw [hm]; rfl)⟩,
          fun _ => ⟨_, hval⟩⟩, ?_⟩
        intro r' b' m hr hok
        cases hr
        rw [hval] at hok
        exact Except.noConfusion hok
      | some m =>
        by_cases hb : b = ""
        · have hval : fileToBase64 (.success r) = .error "Failed to parse file data URL." := by
            simp [fileToBase64, hp, hm, hb]
          refine ⟨⟨fun _ => Or.inr ⟨r, rfl,
            Or.inl (by rw [hp]; exact jsTruthy_some_false.mpr hb)⟩,
            fun _ => ⟨_, hval⟩⟩, ?_⟩
          intro r' b' m' hr hok
          cases hr
          rw [hval] at hok
          exact Except.noConfusion hok
        · by_cases hm2 : m = ""
          · have hval : fileToBase64 (.success r) = .error "Failed to parse file data URL." := by
              simp [fileToBase64, hp, hm, hm2]
            refine ⟨⟨fun _ => Or.inr ⟨r, rfl,
              Or.inr (by rw [hm]; exact jsTruthy_some_false.mpr hm2)⟩,
              fun _ => ⟨_, hval⟩⟩, ?_⟩
            intro r' b' m' hr hok
            cases hr
            rw [hval] at hok
            exact Except.noConfusion hok
          · have hval : fileToBase64 (.success r) = .ok (b, m) := by
              simp [fileToBase64, hp, hm, hb, hm2]
            refine ⟨⟨?_, ?_⟩, ?_⟩
            · rintro ⟨e, he⟩
              rw [hval] at he
              exact Except.noConfusion he
            · rintro (hfail | ⟨r', hr', hbad | hbad⟩)
              · exact FileReadOutcome.noConfusion hfail
              · cases hr'
                rw [hp] at hbad
                exact absurd (jsTruthy_some_false.mp hbad) hb
              · cases hr'
                rw [hm] at hbad
                exact absurd (jsTruthy_some_false.mp hbad) hm2
            · intro r' b' m' hr hok
              cases hr
              rw [hval] at hok
              cases hok
              exact ⟨hp, hm⟩

/-- Witness for C6 at a concrete well-formed data URL. -/
theorem encoder_fails_exactly_witness :
    encoderSpec (FileReadOutcome.success "data:image/png;base64,AAAA") :=
  encoder_fails_exactly_on_unreadable_or_malformed
    (FileReadOutcome.success "data:image/png;base64,AAAA")

/-- C7: an empty or whitespace-only prompt makes `generateBackground` reject
with "Prompt cannot be empty." before the remote client is constructed and
before any network request is made (the external-step trace is empty). -/
theorem generate_rejects_empty_prompt (prompt : String) (apiKey : Option String)
    (call : Except String (Option String)) (h : jsTrim prompt = "") :
    generateBackground prompt apiKey call =
      (.error "Prompt cannot be empty.", []) := by
  unfold generateBackground
  rw [h]
  rfl

/-- Witness for C7 at a whitespace-only prompt. -/
theorem generate_rejects_empty_prompt_witness :
    jsTrim "   " = "" ∧
    generateBackground "   " (some "key") (.ok (some "img")) =
      (.error "Prompt cannot be empty.", []) :=
  ⟨by decide, generate_rejects_empty_prompt "   " (some "key") (.ok (some "img"))
    (by decide)⟩

/-- A response with no inline-data part has no image data. -/
theorem findImageData_eq_none {parts : List Part}
    (h : ∀ p ∈ parts, p.inlineData = Option.none) :
    findImageData parts = Option.none := by
  unfold findImageData
  rw [List.find?_eq_none.mpr]
  · rfl
  · intro p hp
    simp [h p hp]

/-- A found error text is never the empty string. -/
theorem findErrorText_ne_empty {parts : List Part} {t : String}
    (h : findErrorText parts = some t) : t ≠ "" := by
  unfold findErrorText at h
  cases hf : parts.find? (fun p => jsTruthy p.text) with
  | none => rw [hf] at h; exact Option.noConfusion h
  | some p =>
    rw [hf] at h
    have hp := List.find?_some hf
    rw [show (some p).bind Part.text = p.text from rfl] at h
    rw [h] at hp
    simpa [jsTruthy] using hp

/-- Error surfacing in `removeBackground` (claim C8): with no image part, a
truthy text part's text appears verbatim inside the surfaced error message;
with neither part, the surfaced message is built from the fixed fallback. -/
def surfacesModelText (apiKey : Option String) (parts : List Part) : Prop :=
  (∀ t, findErrorText parts = some t →
      ∃ pre post, removeBackground apiKey (.ok parts) = .error (pre ++ t ++ post)) ∧
  (findErrorText parts = Option.none →
      removeBackground apiKey (.ok parts) = .error
        "An error occurred while communicating with the AI: Failed to extract image from AI response: The AI could not process the image. Please try a different one.")

/-- C8: when the removal response has no image part, the thrown error's
message contains the model's text part verbatim, and a fixed fallback message
is used when there is neither an image nor a text part. -/
theorem removeBackground_surfaces_model_text (apiKey : Option String)
    (parts : List Part) (hk : jsTruthy apiKey = true)
    (hni : ∀ p ∈ parts, p.inlineData = Option.none) :
    surfacesModelText apiKey parts := by
  have himg := findImageData_eq_none hni
  constructor
  · intro t ht
    have hne := findErrorText_ne_empty ht
    refine ⟨"An error occurred while communicating with the AI: Failed to extract image from AI response: ",
      "", ?_⟩
    simp only [removeBackground, hk, if_true, himg, ht, jsOrStr, if_neg hne]
    rw [String.append_empty, ← String.append_assoc]
    rfl
  · intro ht
    simp only [removeBackground, hk, if_true, himg, ht, jsOrStr]
    rfl

/-- Witness for C8: a response whose only part is the text
"unsupported format". -/
theorem removeBackground_surfaces_model_text_witness :
    jsTruthy (some "key") = true ∧
    (∀ p ∈ [(⟨Option.none, some "unsupported format"⟩ : Part)],
      p.inlineData = Option.none) ∧
    surfacesModelText (some "key") [⟨Option.none, some "unsupported format"⟩] :=
  ⟨by decide, by decide,
    removeBackground_surfaces_model_text (some "key")
      [⟨Option.none, some "unsupported format"⟩] (by decide) (by decide)⟩

/-- Splitting a list that does not contain the separator yields the list
itself as the single segment. -/
theorem jsSplitChar_of_not_mem {sep : Char} {cs : List Char} (h : sep ∉ cs) :
    jsSplitChar sep cs = [cs] := by
  induction cs with
  | nil => rfl
  | cons c rest ih =>
    have hc : ¬c = sep := fun hce => h (hce ▸ List.mem_cons_self c rest)
    have hr : sep ∉ rest := fun hm => h (List.mem_cons_of_mem c hm)
    simp [jsSplitChar, hc, ih hr]

/-- C10: the download filename joins all dot-separated segments but the last
and appends "_processed.png"; with no dot in the original name the stem is
empty and the result is exactly "_processed.png". -/
theorem downloadName_no_dot (s : String) (h : ('.' : Char) ∉ s.data) :
    (jsSplitChar '.' s.data).dropLast = [] ∧ downloadName s = "_processed.png" := by
  have hs := jsSplitChar_of_not_mem h
  refine ⟨by rw [hs]; rfl, ?_⟩
  unfold downloadName
  rw [hs]
  rfl

/-- Witness for C10 at a dot-free filename. -/
theorem downloadName_no_dot_witness :
    (('.' : Char) ∉ ("photo" : String).data) ∧
    ((jsSplitChar '.' ("photo" : String).data).dropLast = [] ∧
      downloadName "photo" = "_processed.png") :=
  ⟨by decide, downloadName_no_dot "photo" (by decide)⟩

end BgRemover
